import Mathlib

/-!
Verification development for the HealthInformer repository.

Shallow embedding of the parts of the code base that the verified
properties are about:

* `app/dao/db_policy/create_policydb.py` — schema of the `documents` and
  `embeddings` tables (in particular the `UNIQUE (doc_id, field)`
  constraint on `embeddings`).
* `app/crawling/dbsetup_pipeline.py` — `upload_records`: crawled records
  are inserted together with per-field embeddings, committing every
  `commit_every` (default 50) records, rolling back the in-flight batch
  on error.
* `app/crawling/crawlers/healthcare_chatbot.py` — the `search_with_score`
  retrieval tool (a pgvector nearest-neighbour SQL query), the agent
  configuration (`max_iterations=5`) and the `run_conversation`
  input-handling loop.
* `app/db/chat_repository.py` — `save_full_conversation`.
* `app/langgraph/nodes/context_assembler.py` — `assemble`.

External services (OpenAI embeddings, the LLM, pgvector's cosine-distance
operator, uuid generation, wall-clock time) are modelled as parameters of
the embedded functions.  Vectors are lists of rationals; SQL row order
before an `ORDER BY` is unspecified, which is modelled relationally (a set
of admissible outputs).
-/

namespace HealthInformer

/-- A pgvector vector value (`VECTOR(1536)` column), modelled as a list of
rationals. -/
abbrev Vec := List ℚ

/-- The `field` column of `embeddings`: `CHECK (field IN
('title','requirements','benefits'))` (create_policydb.py). -/
inductive EmbField where
  | title
  | requirements
  | benefits
deriving DecidableEq, Repr

/-- One row of the `embeddings` table (create_policydb.py,
`ensure_embeddings_table`): `doc_id`, `field`, `embedding`.  The surrogate
`id` and `created_at` columns play no role in the verified properties and
are omitted. -/
structure EmbRow where
  docId : Nat
  field : EmbField
  vec : Vec
deriving DecidableEq, Repr

/-- The `embeddings` table contents, in insertion order. -/
abbrev EmbTable := List EmbRow

/-- Does the table already hold a row for the `(doc_id, field)` pair?
This is what the `UNIQUE (doc_id, field)` constraint checks. -/
def hasPair (t : EmbTable) (d : Nat) (f : EmbField) : Bool :=
  t.any fun r => decide (r.docId = d) && decide (r.field = f)

inductive SqlError where
  | uniqueViolation
deriving DecidableEq, Repr

/-- `INSERT INTO embeddings (doc_id, field, embedding) VALUES %s`
(dbsetup_pipeline.py, `upload_records`, lines 118-124): a plain `INSERT`
with no `ON CONFLICT` clause.  PostgreSQL rejects a row whose
`(doc_id, field)` pair is already present, because of the
`UNIQUE (doc_id, field)` constraint declared in
`ensure_embeddings_table` (create_policydb.py, lines 76-90). -/
def insertEmbedding (t : EmbTable) (d : Nat) (f : EmbField) (v : Vec) :
    Except SqlError EmbTable :=
  if hasPair t d f then .error .uniqueViolation
  else .ok (t ++ [⟨d, f, v⟩])

/-- Effect of one insert attempt on the table: a rejected insert leaves
the table unchanged (the statement's transaction is aborted). -/
def applyInsert (t : EmbTable) (op : Nat × EmbField × Vec) : EmbTable :=
  match insertEmbedding t op.1 op.2.1 op.2.2 with
  | .ok t' => t'
  | .error _ => t

/-- At most one embedding per `(document, field)` pair. -/
def uniquePairs (t : EmbTable) : Prop :=
  t.Pairwise fun a b => ¬(a.docId = b.docId ∧ a.field = b.field)

/-- One row of the `documents` table (create_policydb.py,
`ensure_documents_table`), column order as in the DDL; the `created_at`
and `updated_at` timestamp columns are defaulted by the database and are
omitted. -/
structure Document where
  id : Nat
  title : String
  requirements : String
  benefits : String
  raw_text : String
  url : String
  policy_id : Option Nat
  region : String
  sitename : String
  weight : Int
  llm_reinforced : Bool
  llm_reinforced_sources : Option String
deriving DecidableEq, Repr

/-- The relational store the retrieval tool and the uploader talk to. -/
structure PolicyDB where
  docs : List Document
  embs : List EmbRow
deriving DecidableEq, Repr

/-- One joined row produced by the `search_with_score` SQL query
(healthcare_chatbot.py, lines 173-181): the selected document columns
plus the cosine distance `e.embedding <=> query_embedding` used as the
sort key (the reported similarity is `1 -` this distance). -/
structure ScoredRow where
  id : Nat
  title : String
  requirements : String
  benefits : String
  region : String
  url : String
  distance : ℚ
deriving DecidableEq, Repr

/-- `FROM documents d JOIN embeddings e ON d.id = e.doc_id`, with the
distance computed by the (external, parameterised) pgvector operator
`dist`.  The enumeration order is canonical here; actual SQL row order is
handled relationally in `validSearchRows`. -/
def joinRows (db : PolicyDB) (dist : Vec → Vec → ℚ) (q : Vec) :
    List ScoredRow :=
  db.docs.flatMap fun d =>
    (db.embs.filter fun e => e.docId == d.id).map fun e =>
      ⟨d.id, d.title, d.requirements, d.benefits, d.region, d.url,
        dist e.vec q⟩

/-- `ORDER BY e.embedding <=> query_embedding` — ascending distance. -/
def distLE (a b : ScoredRow) : Prop := a.distance ≤ b.distance

/-- Descending similarity, where similarity is `1 - distance`. -/
def simDesc (a b : ScoredRow) : Prop := 1 - b.distance ≤ 1 - a.distance

/-- Admissible result sets of the `search_with_score` query: PostgreSQL
returns some ordering of the joined rows that is sorted by the `ORDER BY`
key (ties in an unspecified order), of which `LIMIT 7` keeps the first 7
(healthcare_chatbot.py, lines 173-181). -/
def validSearchRows (db : PolicyDB) (dist : Vec → Vec → ℚ) (q : Vec)
    (rows : List ScoredRow) : Prop :=
  ∃ sp, sp.Perm (joinRows db dist q) ∧ List.Sorted distLE sp ∧
    rows = List.take 7 sp

/-- Python `text.replace("\n", " ")` for the single-character pattern used
in `search_with_score`. -/
def stripNewlines (s : String) : String :=
  ⟨s.data.map fun c => if c = '\n' then ' ' else c⟩

/-- Python `text[:200]` — the first 200 code points. -/
def pyTake (n : Nat) (s : String) : String :=
  ⟨s.data.take n⟩

/-- `text_content = f"{title}\n요건: {req}\n혜택: {ben}"` followed by
`text_content[:200].replace("\n", " ")` (healthcare_chatbot.py,
lines 191-192). -/
def previewOf (title req ben : String) : String :=
  stripNewlines (pyTake 200 (title ++ "\n요건: " ++ req ++ "\n혜택: " ++ ben))

/-- `f"{row[6]:.4f}"` — the similarity score rounded to 4 decimal places
(modelled as round-half-up on rationals). -/
def round4 (x : ℚ) : ℚ :=
  ((Int.floor (x * 10000 + 1 / 2) : ℤ) : ℚ) / 10000

/-- The per-document block of the tool's formatted answer
(healthcare_chatbot.py, lines 194-200): title, region, truncated content
preview, source URL and the rounded similarity score. -/
structure DocSummary where
  title : String
  region : String
  preview : String
  url : String
  score : ℚ
deriving DecidableEq, Repr

def mkSummary (r : ScoredRow) : DocSummary :=
  ⟨r.title, r.region, previewOf r.title r.requirements r.benefits, r.url,
    round4 (1 - r.distance)⟩

/-- The sentinel text returned when the query yields no rows. -/
def noResultsText : String := "검색 결과가 없습니다."

/-- Value returned by the `search_with_score` tool: either the sentinel
"no results" text, a formatted list of scored summaries, or — when any
exception is raised inside the tool — an error *message* (the `except`
branch returns a string instead of propagating the exception). -/
inductive SearchResult where
  | noResults
  | results (items : List DocSummary)
  | errorMsg (msg : String)
deriving DecidableEq, Repr

/-- `if not rows: return "검색 결과가 없습니다."` followed by the
formatting loop (healthcare_chatbot.py, lines 185-202). -/
def formatRows (rows : List ScoredRow) : SearchResult :=
  if rows.isEmpty then .noResults else .results (rows.map mkSummary)

/-- A complete run of the `search_with_score` tool body: embedding the
query may itself fail (`er = .error e`), in which case the surrounding
`except` clause turns the exception into a returned message; otherwise
the result formats some admissible row set.  The tool is total — it never
propagates an exception. -/
def toolRun (db : PolicyDB) (dist : Vec → Vec → ℚ)
    (er : Except String Vec) (res : SearchResult) : Prop :=
  match er with
  | .error e => res = .errorMsg ("검색 중 오류가 발생했습니다: " ++ e)
  | .ok q => ∃ rows, validSearchRows db dist q rows ∧ res = formatRows rows

/-- One crawled record, as produced by the crawler collaborators and
consumed by `upload_records` (dbsetup_pipeline.py, lines 88-96: `title`,
`support_target`, `support_content`, `raw_text`, `source_url`,
`region`). -/
structure SrcRecord where
  title : String
  support_target : String
  support_content : String
  raw_text : String
  source_url : String
  region : String
deriving DecidableEq, Repr

/-- External collaborators of `upload_records` that live outside `src/`
(`dbuploader_policy.preprocess_title`, `dbuploader_policy.get_embedding`,
`utils_db.extract_sitename_from_url`, `utils_db.get_weight`), modelled as
parameters.  `getEmbedding text model` returns `.error ()` when the call
raises, and `.ok v` otherwise; a falsy result (`None` or an empty vector)
is modelled as `.ok []`. -/
structure UploadEnv where
  preprocessTitle : String → String
  getEmbedding : String → String → Except Unit Vec
  sitenameOf : String → String
  weightOf : String → String → Int

/-- The three `(fname, text_value)` pairs iterated by `upload_records`
(dbsetup_pipeline.py, lines 108-113): the title text is preprocessed, the
other two fields are embedded verbatim. -/
def fieldTexts (env : UploadEnv) (r : SrcRecord) : List (EmbField × String) :=
  [(.title, env.preprocessTitle r.title),
   (.requirements, r.support_target),
   (.benefits, r.support_content)]

/-- Run `get_embedding` over a list of `(field, text)` pairs in order,
propagating a raised exception and keeping every returned vector (empty
or not). -/
def embedFields (env : UploadEnv) (m : String) :
    List (EmbField × String) → Except Unit (List (EmbField × Vec))
  | [] => .ok []
  | (f, t) :: rest =>
    match env.getEmbedding t m with
    | .error e => .error e
    | .ok v =>
      match embedFields env m rest with
      | .error e => .error e
      | .ok tail => .ok ((f, v) :: tail)

/-- The three embedding-call results for one record. -/
def fieldVecs (env : UploadEnv) (m : String) (r : SrcRecord) :
    Except Unit (List (EmbField × Vec)) :=
  embedFields env m (fieldTexts env r)

/-- Does processing this record's embeddings succeed (no exception)? -/
def fvOk (env : UploadEnv) (m : String) (r : SrcRecord) : Bool :=
  match fieldVecs env m r with
  | .ok _ => true
  | .error _ => false

/-- The embedding-call results, defaulting to `[]` on error. -/
def fieldVecsD (env : UploadEnv) (m : String) (r : SrcRecord) :
    List (EmbField × Vec) :=
  match fieldVecs env m r with
  | .ok l => l
  | .error _ => []

/-- The `documents` row inserted for one record (dbsetup_pipeline.py,
lines 99-103): `(title, requirements, benefits, raw_text, url, policy_id,
region, sitename, weight, llm_reinforced, llm_reinforced_sources)` =
`(title, support_target, support_content, raw_text, source_url, NULL,
region, sitename, weight, FALSE, NULL)`, with the id drawn from the
`BIGSERIAL` sequence. -/
def mkDoc (env : UploadEnv) (docId : Nat) (r : SrcRecord) : Document :=
  ⟨docId, r.title, r.support_target, r.support_content, r.raw_text,
    r.source_url, none, r.region, env.sitenameOf r.source_url,
    env.weightOf r.region (env.sitenameOf r.source_url), false, none⟩

/-- `if vec: emb_rows.append((doc_id, fname, vec))` (dbsetup_pipeline.py,
lines 114-116): only fields with a non-falsy vector become rows. -/
def embRowsOf (docId : Nat) (l : List (EmbField × Vec)) : List EmbRow :=
  (l.filter fun p => !p.2.isEmpty).map fun p => ⟨docId, p.1, p.2⟩

/-- Processing of one record inside the upload loop: insert the document
row (consuming a sequence id), then embed the three fields; an embedding
exception aborts the record. -/
def procRecord (env : UploadEnv) (m : String) (docId : Nat) (r : SrcRecord) :
    Except Unit (Document × List EmbRow) :=
  match fieldVecs env m r with
  | .error e => .error e
  | .ok l => .ok (mkDoc env docId r, embRowsOf docId l)

/-- The `for idx, item in enumerate(records, 1)` loop of `upload_records`
(dbsetup_pipeline.py, lines 88-136).  State: `db` is the committed
database, `nid` the next `BIGSERIAL` id (sequences are not transactional,
so it is not rolled back), `pd`/`pe` the document/embedding rows inserted
since the last commit, `inserted` the loop counter.  Every
`commit_every`-th record the transaction is committed; an exception rolls
back the in-flight rows and is re-raised (`.error` carries the database
as visible after the rollback); the trailing `conn.commit()` commits the
remainder. -/
def uploadLoop (env : UploadEnv) (m : String) (ce : Nat) :
    List SrcRecord → PolicyDB → Nat → List Document → List EmbRow → Nat →
    Except PolicyDB PolicyDB
  | [], db, _, pd, pe, _ => .ok ⟨db.docs ++ pd, db.embs ++ pe⟩
  | r :: rs, db, nid, pd, pe, inserted =>
    match procRecord env m nid r with
    | .error _ => .error db
    | .ok (doc, erows) =>
      if (inserted + 1) % ce == 0 then
        uploadLoop env m ce rs
          ⟨db.docs ++ (pd ++ [doc]), db.embs ++ (pe ++ erows)⟩
          (nid + 1) [] [] (inserted + 1)
      else
        uploadLoop env m ce rs db (nid + 1) (pd ++ [doc]) (pe ++ erows)
          (inserted + 1)

/-- `eprint("[upload] 업로드할 레코드가 없습니다.")` — the "no records"
log line. -/
def noRecordsMsg : String := "[upload] 업로드할 레코드가 없습니다."

/-- `eprint(f"[upload] 에러로 롤백: {e}")` — the rollback log line (the
exception text is elided). -/
def rollbackMsg : String := "[upload] 에러로 롤백"

/-- Observable outcome of one `upload_records` call: the resulting
database, the log lines written, whether a database connection was opened
and whether an exception propagated to the caller. -/
structure UploadOutcome where
  db : PolicyDB
  logs : List String
  connOpened : Bool
  raised : Bool
deriving Repr

/-- `upload_records(records, reset, emb_model, commit_every)`
(dbsetup_pipeline.py, lines 60-145).  An empty record list returns
immediately — before any connection is opened — after logging the "no
records" line.  Otherwise a connection is opened, `reset != "none"`
truncates both tables (restarting the id sequence), and the records are
processed by `uploadLoop`. -/
def upload_records (env : UploadEnv) (m : String) (ce : Nat)
    (records : List SrcRecord) (db : PolicyDB) (nid : Nat)
    (reset : String) : UploadOutcome :=
  if records.isEmpty then
    ⟨db, [noRecordsMsg], false, false⟩
  else
    let db0 := if reset ≠ "none" then (⟨[], []⟩ : PolicyDB) else db
    let nid0 := if reset ≠ "none" then 1 else nid
    match uploadLoop env m ce records db0 nid0 [] [] 0 with
    | .ok final => ⟨final, [], true, false⟩
    | .error atFail => ⟨atFail, [rollbackMsg], true, true⟩

/-- Exit code of the surrounding `main` (dbsetup_pipeline.py,
lines 241-244): `sys.exit(1)` on an unhandled exception, 0 otherwise. -/
def exitCodeOf (o : UploadOutcome) : Nat :=
  if o.raised then 1 else 0

/-- Committed-database evolution along a run of `uploadLoop` in which no
record fails: same recursion as `uploadLoop`, tracking only the committed
state (proof device for the batch-commit characterisation). -/
def commitSim (env : UploadEnv) (m : String) (ce : Nat) :
    List SrcRecord → PolicyDB → Nat → List Document → List EmbRow → Nat →
    PolicyDB
  | [], db, _, _, _, _ => db
  | r :: rs, db, nid, pd, pe, inserted =>
    match procRecord env m nid r with
    | .error _ => db
    | .ok (doc, erows) =>
      if (inserted + 1) % ce == 0 then
        commitSim env m ce rs
          ⟨db.docs ++ (pd ++ [doc]), db.embs ++ (pe ++ erows)⟩
          (nid + 1) [] [] (inserted + 1)
      else
        commitSim env m ce rs db (nid + 1) (pd ++ [doc]) (pe ++ erows)
          (inserted + 1)

/-- Document rows produced by successfully processing a record list with
consecutive sequence ids. -/
def docsFrom (env : UploadEnv) (m : String) (nid : Nat) :
    List SrcRecord → List Document
  | [] => []
  | r :: rs => mkDoc env nid r :: docsFrom env m (nid + 1) rs

/-- Embedding rows produced by successfully processing a record list with
consecutive sequence ids. -/
def embsFrom (env : UploadEnv) (m : String) (nid : Nat) :
    List SrcRecord → List EmbRow
  | [] => []
  | r :: rs => embRowsOf nid (fieldVecsD env m r) ++ embsFrom env m (nid + 1) rs

/-- The iteration cap passed to the agent executor:
`AgentExecutor(..., max_iterations=5)` (healthcare_chatbot.py,
`setup_agent`, line 239). -/
def max_iterations : Nat := 5

/-- What the model decides at the start of an executor round, given the
tool observations gathered so far: either request a tool call or emit the
final answer. -/
inductive ExecEvent where
  | toolCall (name input : String)
  | finish (answer : String)

/-- Result of one conversational turn of the executor: a final answer, or
the partial-answer result produced when the iteration cap is exceeded
("Agent stopped due to iteration limit").  Both record how many tool-call
rounds ran. -/
inductive ExecResult where
  | answered (answer : String) (toolRounds : Nat)
  | stoppedAtLimit (toolRounds : Nat)
deriving DecidableEq, Repr

/-- Modelled from the spec: the LangChain `AgentExecutor` tool-calling
loop is library code, not part of this repository; §4.5 of the spec
describes it as a loop in which each tool invocation is a bounded
synchronous sub-call and "a hard iteration cap (5 tool-call rounds)
prevents infinite tool-calling loops — exceeding it terminates the turn
with a partial-answer result".  `step` is the (external) model decision,
`runTool` the (external) tool evaluation; `fuel` counts the remaining
rounds. -/
def execLoop (step : List (String × String) → ExecEvent)
    (runTool : String → String → String) :
    Nat → List (String × String) → ExecResult
  | 0, obs => .stoppedAtLimit obs.length
  | fuel + 1, obs =>
    match step obs with
    | .finish a => .answered a obs.length
    | .toolCall name input =>
        execLoop step runTool fuel (obs ++ [(name, runTool name input)])

/-- One conversational turn of the executor, with the cap configured in
`setup_agent`. -/
def runTurn (step : List (String × String) → ExecEvent)
    (runTool : String → String → String) : ExecResult :=
  execLoop step runTool max_iterations []

def roundsOf : ExecResult → Nat
  | .answered _ k => k
  | .stoppedAtLimit k => k

def isToolCall : ExecEvent → Bool
  | .toolCall _ _ => true
  | .finish _ => false

/-- Python `str.lower()` on one character (ASCII range, as exercised by
the commands compared in `run_conversation`). -/
def pyLowerChar (c : Char) : Char :=
  if 'A' ≤ c ∧ c ≤ 'Z' then Char.ofNat (c.toNat + 32) else c

/-- Python `str.lower()`. -/
def pyLower (s : String) : String :=
  ⟨s.data.map pyLowerChar⟩

/-- Python `str.strip()` — drop leading and trailing whitespace. -/
def pyStrip (s : String) : String :=
  ⟨((s.data.dropWhile Char.isWhitespace).reverse.dropWhile
      Char.isWhitespace).reverse⟩

/-- `user_input.lower() in ["exit", "quit", "종료"]`
(healthcare_chatbot.py, line 300). -/
def exitWords : List String := ["exit", "quit", "종료"]

/-- `user_input.lower() in ["reset", "clear", "초기화"]`
(healthcare_chatbot.py, line 305). -/
def resetWords : List String := ["reset", "clear", "초기화"]

/-- One chat turn kept in the in-memory history: `true` for a
`HumanMessage`, `false` for an `AIMessage`. -/
abbrev ChatMsg := Bool × String

/-- The chatbot state visible to `run_conversation`
(healthcare_chatbot.py): the in-memory `chat_history` local, the loaded
`structured_data`, the agent configuration (its `max_iterations`), and
the underlying database (which `run_conversation` never writes). -/
structure ChatbotState where
  chatHistory : List ChatMsg
  structuredData : List Document
  agentMax : Nat
  db : PolicyDB
deriving Repr

/-- Whether the loop keeps running (back to awaiting input) or exits. -/
inductive LoopOutcome where
  | exited
  | awaitingInput
deriving DecidableEq, Repr

/-- Observable effect of handling one line of user input. -/
structure StepResult where
  state : ChatbotState
  outcome : LoopOutcome
  printedSummary : Bool
  dbWrites : Nat
deriving Repr

/-- One iteration of the `while True` loop of `run_conversation`
(healthcare_chatbot.py, lines 293-343): strip the input; exit commands
break; reset commands clear the in-memory history, re-print the summary
and continue; empty input continues; anything else runs the agent
(`respond` is the external streamed generation) and appends the
human/assistant pair to the history.  No branch writes to the
database. -/
def stepInput (respond : List ChatMsg → String → String)
    (s : ChatbotState) (raw : String) : StepResult :=
  let input := pyStrip raw
  if pyLower input ∈ exitWords then
    ⟨s, .exited, false, 0⟩
  else if pyLower input ∈ resetWords then
    ⟨{ s with chatHistory := [] }, .awaitingInput, true, 0⟩
  else if input = "" then
    ⟨s, .awaitingInput, false, 0⟩
  else
    ⟨{ s with chatHistory :=
        s.chatHistory ++ [(true, input), (false, respond s.chatHistory input)] },
      .awaitingInput, false, 0⟩

/-- One message dict passed to `save_full_conversation`
(chat_repository.py): required `role` and `content` keys, optional `id`,
`tool_name`, `token_usage`, `policies` and `timestamp` keys.  JSON-valued
fields are opaque strings; timestamps are epoch seconds as rationals. -/
structure InMessage where
  id : Option String
  role : String
  content : String
  tool_name : Option String
  token_usage : Option String
  policies : Option String
  timestamp : Option ℚ
deriving DecidableEq, Repr

/-- The row inserted into `public.conversations` (chat_repository.py,
lines 84-102).  `summaryInitialPrompt` models
`json.dumps({"initial_prompt": messages[0].get("content")})` by its
payload. -/
structure ConvRow where
  id : String
  profile_id : Int
  started_at : ℚ
  ended_at : ℚ
  summaryInitialPrompt : String
  created_at : ℚ
deriving DecidableEq, Repr

/-- The row inserted into `public.messages` (chat_repository.py,
lines 104-129). -/
structure MsgRow where
  id : String
  conversation_id : String
  turn_index : Nat
  role : String
  content : String
  tool_name : Option String
  token_usage : Option String
  meta_policies : Option String
  created_at : ℚ
deriving DecidableEq, Repr

/-- One `cursor.execute(INSERT ...)` performed by
`save_full_conversation`. -/
inductive InsertOp where
  | conv (c : ConvRow)
  | msg (m : MsgRow)
deriving DecidableEq, Repr

/-- Python `":" in content`. -/
def hasColon (s : String) : Bool :=
  s.data.contains ':'

/-- Python `content.split(":")[0]` — the prefix before the first colon. -/
def beforeColon (s : String) : String :=
  ⟨s.data.takeWhile fun c => c ≠ ':'⟩

/-- `msg.get("tool_name") or (content.split(":")[0].strip() if role ==
'tool' and ':' in content else None)` (chat_repository.py, lines 55-59);
Python's `or` also discards an empty-string `tool_name`. -/
def toolNameOf (msg : InMessage) : Option String :=
  let fallback :=
    if msg.role = "tool" ∧ hasColon msg.content then
      some (pyStrip (beforeColon msg.content))
    else none
  match msg.tool_name with
  | some t => if t = "" then fallback else some t
  | none => fallback

/-- The `message_records` entry for position `i` (chat_repository.py,
lines 47-78): `uuid4` calls are modelled by the `freshId` parameter,
`datetime.fromtimestamp` by the identity on epoch seconds. -/
def mkMsgRow (freshId : Nat → String) (convId : String) (now : ℚ)
    (p : Nat × InMessage) : MsgRow :=
  ⟨p.2.id.getD (freshId p.1), convId, p.1, p.2.role, p.2.content,
    toolNameOf p.2, p.2.token_usage, p.2.policies, p.2.timestamp.getD now⟩

/-- `save_full_conversation(cursor, profile_id, messages)`
(chat_repository.py, lines 15-135): an empty message list returns the
sentinel string and performs no insert; otherwise one `conversations` row
is inserted followed by one `messages` row per input message, with
`turn_index` taken from `enumerate(messages)`.  The cursor is modelled by
the returned list of insert operations; `convUuid` models the `uuid4`
conversation id and `now` the wall clock. -/
def save_full_conversation (convUuid : String) (freshId : Nat → String)
    (now : ℚ) (profile_id : Int) (messages : List InMessage) :
    String × List InsertOp :=
  match messages with
  | [] => ("no_messages_to_save", [])
  | m0 :: rest =>
    let started_at := m0.timestamp.getD now
    let ended_at := ((m0 :: rest).getLastD m0).timestamp.getD now
    let convRow : ConvRow :=
      ⟨convUuid, profile_id, started_at, ended_at, m0.content, now⟩
    (convUuid,
      .conv convRow ::
        ((m0 :: rest).enum.map fun p => .msg (mkMsgRow freshId convUuid now p)))

def isConvOp : InsertOp → Bool
  | .conv _ => true
  | .msg _ => false

def msgRowOf : InsertOp → Option MsgRow
  | .msg m => some m
  | .conv _ => none

/-- The `retrieval` sub-dictionary read by `assemble`
(context_assembler.py, lines 77-80). -/
structure AsmRetrieval where
  profile_ctx : Option String
  collection_ctx : Option String
  rag_snippets : Option (List String)
deriving DecidableEq, Repr

/-- The state dictionary passed to the context assembler
(context_assembler.py, lines 60-62): `messages` as (role, content) pairs,
the previous `rolling_summary`, the `turn_count` entry (absent keys are
`none`), and the `retrieval` entry. -/
structure AsmState where
  messages : List (String × String)
  rolling_summary : Option String
  turn_count : Option Nat
  retrieval : Option AsmRetrieval
deriving DecidableEq, Repr

/-- The `context_block` dictionary (context_assembler.py, lines 85-90). -/
structure ContextBlock where
  profile : Option String
  collection : Option String
  documents : List String
  summary : Option String
deriving DecidableEq, Repr

/-- The tool message appended by `assemble` (context_assembler.py,
lines 93-102). -/
structure AssembledMsg where
  role : String
  content : String
  context : ContextBlock
  summary_updated : Bool
  turn_count : Nat
deriving DecidableEq, Repr

/-- Value returned by `assemble` (context_assembler.py, lines 104-107). -/
structure AsmOut where
  rolling_summary : Option String
  messages : List AssembledMsg
deriving DecidableEq, Repr

/-- `int(state.get("turn_count") or 1)` (context_assembler.py, line 62):
a missing or zero (falsy) turn count becomes 1. -/
def effectiveTurnCount (tc : Option Nat) : Nat :=
  match tc with
  | none => 1
  | some n => if n = 0 then 1 else n

/-- `assemble(state)` (context_assembler.py, lines 52-107): every 15th
turn the rolling summary is regenerated (`summarize` models the external
`_summarize` LLM call), otherwise the previous summary is passed through;
the returned tool message records whether the summary was updated. -/
def assemble (summarize : Option String → List (String × String) → String)
    (st : AsmState) : AsmOut :=
  let turn_count := effectiveTurnCount st.turn_count
  let should_update := turn_count % 15 == 0
  let new_summary :=
    if should_update then some (summarize st.rolling_summary st.messages)
    else st.rolling_summary
  let profile_ctx := (st.retrieval.map AsmRetrieval.profile_ctx).join
  let collection_ctx := (st.retrieval.map AsmRetrieval.collection_ctx).join
  let rag_snippets := ((st.retrieval.map AsmRetrieval.rag_snippets).join).getD []
  let context_block : ContextBlock :=
    ⟨profile_ctx, collection_ctx, rag_snippets, new_summary⟩
  let assembled : AssembledMsg :=
    ⟨"tool", "[context_assembler] prompt_ready", context_block,
      should_update, turn_count⟩
  ⟨new_summary, [assembled]⟩

/-! Concrete fixtures used by witnesses and counterexamples. -/

/-- A distance operator that is constant — all candidates tie. -/
def dist0 : Vec → Vec → ℚ := fun _ _ => 0

/-- A distance operator discriminating by vector emptiness. -/
def distByLen : Vec → Vec → ℚ := fun v _ =>
  match v with
  | [] => 0
  | _ => 1

def doc1 : Document :=
  ⟨1, "t1", "r1", "b1", "raw1", "u1", none, "서울", "s1", 1, false, none⟩

def doc2 : Document :=
  ⟨2, "t2", "r2", "b2", "raw2", "u2", none, "부산", "s2", 1, false, none⟩

def db1 : PolicyDB := ⟨[doc1], [⟨1, .title, [1]⟩]⟩

def row1 : ScoredRow := ⟨1, "t1", "r1", "b1", "서울", "u1", 0⟩

/-- Two documents whose (sole) embeddings tie under `dist0`. -/
def db3 : PolicyDB := ⟨[doc1, doc2], [⟨1, .title, []⟩, ⟨2, .title, []⟩]⟩

def rowA : ScoredRow := ⟨1, "t1", "r1", "b1", "서울", "u1", 0⟩

def rowB : ScoredRow := ⟨2, "t2", "r2", "b2", "부산", "u2", 0⟩

/-- Two documents whose embeddings have distinct distances under
`distByLen`. -/
def db4 : PolicyDB := ⟨[doc1, doc2], [⟨1, .title, []⟩, ⟨2, .title, [1]⟩]⟩

def rowC : ScoredRow := ⟨1, "t1", "r1", "b1", "서울", "u1", 0⟩

def rowD : ScoredRow := ⟨2, "t2", "r2", "b2", "부산", "u2", 1⟩

/-- Upload environment whose embedding service always raises. -/
def envFail : UploadEnv :=
  ⟨id, fun _ _ => .error (), id, fun _ _ => 1⟩

/-- Upload environment returning an empty (falsy) vector exactly for the
text "RB", and `[1]` otherwise. -/
def envSkip : UploadEnv :=
  ⟨id, fun t _ => if t = "RB" then .ok [] else .ok [1], id, fun _ _ => 1⟩

def rec0 : SrcRecord := ⟨"t", "a", "b", "c", "d", "e"⟩

/-- Record whose `support_target` text embeds to the empty vector under
`envSkip`. -/
def recSkip : SrcRecord := ⟨"tt", "RB", "bb", "raw", "url", "reg"⟩

def vecsSkip : List (EmbField × Vec) :=
  [(.title, [1]), (.requirements, []), (.benefits, [1])]

def emptyDB : PolicyDB := ⟨[], []⟩

def chatState0 : ChatbotState := ⟨[(true, "hi"), (false, "yo")], [doc1], 5, db1⟩

def inMsg0 : InMessage := ⟨none, "user", "hello", none, none, none, none⟩

def msgs1 : List InMessage := [inMsg0]

/-- Assembler state with a zero turn count. -/
def st0 : AsmState := ⟨[], some "old", some 0, none⟩

/-- Assembler state with turn count 15. -/
def st15 : AsmState := ⟨[], some "old", some 15, none⟩

/-! Helper lemmas. -/

theorem hasPair_eq_false (t : EmbTable) (d : Nat) (f : EmbField)
    (h : hasPair t d f = false) :
    ∀ r ∈ t, ¬(r.docId = d ∧ r.field = f) := by
  intro r hr
  have := List.any_eq_false.mp h r hr
  simpa using this

theorem uniquePairs_applyInsert (t : EmbTable) (op : Nat × EmbField × Vec)
    (h : uniquePairs t) : uniquePairs (applyInsert t op) := by
  unfold applyInsert insertEmbedding
  cases hp : hasPair t op.1 op.2.1 with
  | true => simpa using h
  | false =>
    simp only [Bool.false_eq_true, if_false]
    refine List.pairwise_append.mpr ⟨h, List.pairwise_singleton _ _, ?_⟩
    intro a ha b hb
    rcases List.mem_singleton.mp hb with rfl
    exact hasPair_eq_false t op.1 op.2.1 hp a ha

/-! Claim theorems. -/

/-- C1, counterexample: with a row already present for `(doc_id, field) =
(1, title)`, the plain `INSERT` used by `upload_records` does not replace
the stored vector — it is rejected by the `UNIQUE (doc_id, field)`
constraint and the table is left unchanged, still holding the old vector
`[1]` rather than the new vector `[2]`. -/
theorem insert_existing_pair_errors :
    insertEmbedding [⟨1, .title, [1]⟩] 1 .title [2]
      = .error .uniqueViolation
    ∧ applyInsert [⟨1, .title, [1]⟩] (1, .title, [2])
      = [⟨1, EmbField.title, [1]⟩]
    ∧ ([⟨1, EmbField.title, [1]⟩] : EmbTable)
      ≠ [⟨1, EmbField.title, [2]⟩] := by
  refine ⟨rfl, rfl, ?_⟩
  intro hcontra
  have hv : ([1] : Vec) = [2] :=
    congrArg (fun l : EmbTable => (l.headD ⟨0, .title, []⟩).vec) hcontra
  have : (1 : ℚ) = 2 := by
    simpa using congrArg (fun l : Vec => l.headD 0) hv
  norm_num at this

/-- C1, amended: inserting an embedding for an existing `(doc_id, field)`
pair is rejected by the `UNIQUE (doc_id, field)` constraint (a
unique-violation error, leaving the prior row unchanged) rather than
replacing the vector or duplicating the row; consequently, after any
sequence of insert attempts the table still has at most one embedding per
`(document, field)` pair. -/
theorem at_most_one_embedding_per_pair (ops : List (Nat × EmbField × Vec))
    (t : EmbTable) (h : uniquePairs t) :
    uniquePairs (ops.foldl applyInsert t) := by
  induction ops generalizing t with
  | nil => exact h
  | cons op ops ih => exact ih _ (uniquePairs_applyInsert t op h)

theorem at_most_one_embedding_per_pair_witness :
    uniquePairs ([] : EmbTable)
    ∧ uniquePairs
        (([(1, EmbField.title, ([1] : Vec)), (1, EmbField.title, [2]),
           (2, EmbField.requirements, [3])]).foldl applyInsert []) :=
  ⟨List.Pairwise.nil, at_most_one_embedding_per_pair _ _ List.Pairwise.nil⟩

/-- C2: every admissible result of the `search_with_score` query is a
list of at most 7 rows, sorted by ascending cosine distance (equivalently
descending similarity); formatting yields the sentinel "no results" value
exactly when the join is empty (the `except` wrapper means no exception
ever escapes — the model is total), and otherwise a list of summaries
each carrying the matched document's title, region, truncated preview,
URL and 4-decimal-rounded similarity score. -/
theorem retrieval_contract (db : PolicyDB) (dist : Vec → Vec → ℚ) (q : Vec)
    (rows : List ScoredRow) (h : validSearchRows db dist q rows) :
    rows.length ≤ 7
    ∧ List.Sorted distLE rows
    ∧ List.Sorted simDesc rows
    ∧ (formatRows rows = .noResults ↔ joinRows db dist q = [])
    ∧ (joinRows db dist q ≠ [] →
        formatRows rows = .results (rows.map mkSummary))
    ∧ (∀ r ∈ rows, ∃ d ∈ db.docs, ∃ e ∈ db.embs, e.docId = d.id ∧
        r.distance = dist e.vec q ∧
        mkSummary r = ⟨d.title, d.region,
          previewOf d.title d.requirements d.benefits, d.url,
          round4 (1 - dist e.vec q)⟩) := by
  obtain ⟨sp, hperm, hsort, hrows⟩ := h
  have hsub : rows.Sublist sp := hrows ▸ List.take_sublist 7 sp
  have hrowsort : List.Sorted distLE rows := List.Pairwise.sublist hsub hsort
  have hempty : rows = [] ↔ joinRows db dist q = [] := by
    constructor
    · intro hr
      rw [hrows] at hr
      rcases List.take_eq_nil_iff.mp hr with h7 | hsp
      · omega
      · have := hperm.length_eq
        rw [hsp] at this
        exact List.length_eq_zero.mp this.symm
    · intro hj
      have := hperm.length_eq
      rw [hj] at this
      have hsp : sp = [] := List.length_eq_zero.mp this
      rw [hrows, hsp]
      rfl
  refine ⟨?_, hrowsort, ?_, ?_, ?_, ?_⟩
  · rw [hrows]; exact List.length_take_le 7 sp
  · exact hrowsort.imp fun hab => sub_le_sub_left hab 1
  · unfold formatRows
    constructor
    · intro hf
      by_cases he : rows.isEmpty
      · exact hempty.mp (List.isEmpty_iff.mp he)
      · simp [he] at hf
    · intro hj
      have : rows = [] := hempty.mpr hj
      simp [this]
  · intro hj
    have hne : rows ≠ [] := fun hr => hj (hempty.mp hr)
    unfold formatRows
    simp [List.isEmpty_iff, hne]
  · intro r hr
    have hrsp : r ∈ sp := hsub.subset hr
    have hrjoin : r ∈ joinRows db dist q := hperm.mem_iff.mp hrsp
    rcases List.mem_flatMap.mp hrjoin with ⟨d, hd, hrd⟩
    rcases List.mem_map.mp hrd with ⟨e, he, hre⟩
    rcases List.mem_filter.mp he with ⟨he', heq⟩
    refine ⟨d, hd, e, he', by simpa using heq, ?_, ?_⟩
    · rw [← hre]
    · rw [← hre]; rfl

theorem retrieval_contract_witness :
    validSearchRows db1 dist0 [] [row1]
    ∧ ([row1] : List ScoredRow).length ≤ 7 := by
  have hjoin : joinRows db1 dist0 [] = [row1] := rfl
  have hvalid : validSearchRows db1 dist0 [] [row1] :=
    ⟨[row1], hjoin ▸ List.Perm.refl [row1], List.sorted_singleton row1, rfl⟩
  exact ⟨hvalid, (retrieval_contract db1 dist0 [] [row1] hvalid).1⟩

/-- C3, counterexample: the query orders only by cosine distance with no
tie-break on the document id.  On a database where both candidates have
equal distance, both `[rowA, rowB]` (ids `[1, 2]`) and `[rowB, rowA]`
(ids `[2, 1]`) are admissible outputs of the same query: an output
ranking the larger id first is allowed, and repeated calls need not
return the same ordered list. -/
theorem retrieval_tiebreak_counterexample :
    validSearchRows db3 dist0 [] [rowA, rowB]
    ∧ validSearchRows db3 dist0 [] [rowB, rowA]
    ∧ rowA.distance = rowB.distance
    ∧ [rowA, rowB].map ScoredRow.id = [1, 2]
    ∧ [rowB, rowA].map ScoredRow.id = [2, 1]
    ∧ ([rowA, rowB] : List ScoredRow) ≠ [rowB, rowA] := by
  have hjoin : joinRows db3 dist0 [] = [rowA, rowB] := rfl
  have hsAB : List.Sorted distLE [rowA, rowB] := by
    refine List.pairwise_cons.mpr ⟨?_, List.pairwise_singleton _ _⟩
    intro b hb
    rcases List.mem_singleton.mp hb with rfl
    exact le_refl _
  have hsBA : List.Sorted distLE [rowB, rowA] := by
    refine List.pairwise_cons.mpr ⟨?_, List.pairwise_singleton _ _⟩
    intro b hb
    rcases List.mem_singleton.mp hb with rfl
    exact le_refl _
  refine ⟨⟨[rowA, rowB], hjoin ▸ List.Perm.refl _, hsAB, rfl⟩,
          ⟨[rowB, rowA], hjoin ▸ List.Perm.swap rowA rowB [], hsBA, rfl⟩,
          rfl, rfl, rfl, ?_⟩
  intro hcontra
  have : rowA = rowB := (List.cons.injEq _ _ _ _ ▸ hcontra).1
  have hid : (1 : Nat) = 2 := congrArg ScoredRow.id this
  omega

theorem sorted_perm_distinct_eq :
    ∀ (l1 l2 : List ScoredRow), l1.Perm l2 →
      l1.Pairwise (fun a b => a.distance ≠ b.distance) →
      List.Sorted distLE l1 → List.Sorted distLE l2 → l1 = l2 := by
  intro l1
  induction l1 with
  | nil =>
    intro l2 hp _ _ _
    exact (hp.symm.eq_nil).symm ▸ rfl
  | cons a t1 ih =>
    intro l2 hp hpw hs1 hs2
    cases l2 with
    | nil => simpa using hp.eq_nil
    | cons b t2 =>
      have hab : a = b := by
        by_contra hne
        have hainl2 : a ∈ b :: t2 := hp.mem_iff.mp (List.mem_cons_self a t1)
        have hbinl1 : b ∈ a :: t1 := hp.symm.mem_iff.mp (List.mem_cons_self b t2)
        have ha2 : a ∈ t2 := by
          rcases List.mem_cons.mp hainl2 with h | h
          · exact absurd h hne
          · exact h
        have hb1 : b ∈ t1 := by
          rcases List.mem_cons.mp hbinl1 with h | h
          · exact absurd h.symm hne
          · exact h
        have hle1 : a.distance ≤ b.distance :=
          (List.sorted_cons.mp hs1).1 b hb1
        have hle2 : b.distance ≤ a.distance :=
          (List.sorted_cons.mp hs2).1 a ha2
        exact (List.pairwise_cons.mp hpw).1 b hb1 (le_antisymm hle1 hle2)
      subst hab
      have ht : t1.Perm t2 := hp.cons_inv
      rw [ih t2 ht (List.pairwise_cons.mp hpw).2 (List.sorted_cons.mp hs1).2
            (List.sorted_cons.mp hs2).2]

/-- C3, amended: the query has no tie-break — among candidates with equal
distance the order is unspecified, so the output need not be
deterministic (see the counterexample).  When all joined candidates have
pairwise-distinct distances, however, any two admissible outputs of the
same query on the same database state coincide, so repeated calls return
the same ordered top-7 list. -/
theorem retrieval_deterministic_when_distinct (db : PolicyDB)
    (dist : Vec → Vec → ℚ) (q : Vec) (out1 out2 : List ScoredRow)
    (hd : (joinRows db dist q).Pairwise fun a b => a.distance ≠ b.distance)
    (h1 : validSearchRows db dist q out1)
    (h2 : validSearchRows db dist q out2) : out1 = out2 := by
  obtain ⟨sp1, hp1, hs1, ho1⟩ := h1
  obtain ⟨sp2, hp2, hs2, ho2⟩ := h2
  have hsymm : ∀ {x y : ScoredRow},
      x.distance ≠ y.distance → y.distance ≠ x.distance := fun h => h.symm
  have hd1 : sp1.Pairwise (fun a b => a.distance ≠ b.distance) :=
    (List.Perm.pairwise_iff hsymm hp1).mpr hd
  have hsp : sp1 = sp2 :=
    sorted_perm_distinct_eq sp1 sp2 (hp1.trans hp2.symm) hd1 hs1 hs2
  rw [ho1, ho2, hsp]

theorem retrieval_deterministic_witness :
    (joinRows db4 distByLen []).Pairwise
      (fun a b => a.distance ≠ b.distance)
    ∧ validSearchRows db4 distByLen [] [rowC, rowD]
    ∧ ([rowC, rowD] : List ScoredRow) = [rowC, rowD] := by
  have hjoin : joinRows db4 distByLen [] = [rowC, rowD] := rfl
  have hd : (joinRows db4 distByLen []).Pairwise
      (fun a b => a.distance ≠ b.distance) := by
    rw [hjoin]
    refine List.pairwise_cons.mpr ⟨?_, List.pairwise_singleton _ _⟩
    intro b hb
    rcases List.mem_singleton.mp hb with rfl
    simp [rowC, rowD]
  have hsort : List.Sorted distLE [rowC, rowD] := by
    refine List.pairwise_cons.mpr ⟨?_, List.pairwise_singleton _ _⟩
    intro b hb
    rcases List.mem_singleton.mp hb with rfl
    show rowC.distance ≤ rowD.distance
    simp [rowC, rowD, distLE]
  have hvalid : validSearchRows db4 distByLen [] [rowC, rowD] :=
    ⟨[rowC, rowD], hjoin ▸ List.Perm.refl _, hsort, rfl⟩
  exact ⟨hd, hvalid,
    retrieval_deterministic_when_distinct db4 distByLen [] [rowC, rowD]
      [rowC, rowD] hd hvalid hvalid⟩

theorem procRecord_ok (env : UploadEnv) (m : String) (nid : Nat)
    (r : SrcRecord) (h : fvOk env m r = true) :
    procRecord env m nid r
      = .ok (mkDoc env nid r, embRowsOf nid (fieldVecsD env m r)) := by
  unfold procRecord fieldVecsD
  unfold fvOk at h
  cases hfv : fieldVecs env m r with
  | ok l => rfl
  | error e => rw [hfv] at h; simp at h

theorem procRecord_err (env : UploadEnv) (m : String) (nid : Nat)
    (r : SrcRecord) (h : fvOk env m r = false) :
    procRecord env m nid r = .error () := by
  unfold procRecord
  unfold fvOk at h
  cases hfv : fieldVecs env m r with
  | ok l => rw [hfv] at h; simp at h
  | error e => rfl

theorem uploadLoop_fail (env : UploadEnv) (m : String) (ce : Nat) :
    ∀ (pre : List SrcRecord) (bad : SrcRecord) (rest : List SrcRecord)
      (db : PolicyDB) (nid : Nat) (pd : List Document) (pe : List EmbRow)
      (i : Nat), (∀ r ∈ pre, fvOk env m r = true) → fvOk env m bad = false →
      uploadLoop env m ce (pre ++ bad :: rest) db nid pd pe i
        = .error (commitSim env m ce pre db nid pd pe i) := by
  intro pre
  induction pre with
  | nil =>
    intro bad rest db nid pd pe i _ hbad
    simp [uploadLoop, commitSim, procRecord_err env m nid bad hbad]
  | cons r pre ih =>
    intro bad rest db nid pd pe i hpre hbad
    have hr : fvOk env m r = true := hpre r (List.mem_cons_self r pre)
    have hpre' : ∀ x ∈ pre, fvOk env m x = true :=
      fun x hx => hpre x (List.mem_cons_of_mem r hx)
    rw [List.cons_append]
    simp only [uploadLoop, commitSim, procRecord_ok env m nid r hr]
    cases hco : ((i + 1) % ce == 0) with
    | true =>
      simp only [hco, if_true]
      exact ih bad rest _ _ _ _ _ hpre' hbad
    | false =>
      simp only [hco, Bool.false_eq_true, if_false]
      exact ih bad rest _ _ _ _ _ hpre' hbad

theorem commitSim_shift (env : UploadEnv) (m : String) (ce : Nat) :
    ∀ (l : List SrcRecord) (db : PolicyDB) (nid : Nat) (pd : List Document)
      (pe : List EmbRow) (i : Nat),
      commitSim env m ce l db nid pd pe (i + ce)
        = commitSim env m ce l db nid pd pe i := by
  intro l
  induction l with
  | nil => intro db nid pd pe i; rfl
  | cons r rs ih =>
    intro db nid pd pe i
    simp only [commitSim]
    cases hpr : procRecord env m nid r with
    | error e => rfl
    | ok p =>
      obtain ⟨doc, erows⟩ := p
      have hmod : (i + ce + 1) % ce = (i + 1) % ce := by
        rw [Nat.add_right_comm]
        exact Nat.add_mod_right (i + 1) ce
      rw [hmod]
      cases hco : ((i + 1) % ce == 0) with
      | true =>
        simp only [hco, if_true]
        rw [show i + ce + 1 = (i + 1) + ce by omega]
        exact ih _ _ _ _ _
      | false =>
        simp only [hco, Bool.false_eq_true, if_false]
        rw [show i + ce + 1 = (i + 1) + ce by omega]
        exact ih _ _ _ _ _

theorem commitSim_noCommit (env : UploadEnv) (m : String) (ce : Nat) :
    ∀ (l : List SrcRecord) (db : PolicyDB) (nid : Nat) (pd : List Document)
      (pe : List EmbRow) (i : Nat), i + l.length < ce →
      commitSim env m ce l db nid pd pe i = db := by
  intro l
  induction l with
  | nil => intro db nid pd pe i _; rfl
  | cons r rs ih =>
    intro db nid pd pe i hlt
    simp only [commitSim]
    cases hpr : procRecord env m nid r with
    | error e => rfl
    | ok p =>
      obtain ⟨doc, erows⟩ := p
      have hlen : i + 1 + rs.length < ce := by
        simp only [List.length_cons] at hlt
        omega
      have hmod : (i + 1) % ce = i + 1 := Nat.mod_eq_of_lt (by omega)
      have hcond : ((i + 1) % ce == 0) = false := by
        rw [hmod]
        simp
      simp only [hcond, Bool.false_eq_true, if_false]
      exact ih _ _ _ _ _ hlen

theorem docsFrom_append (env : UploadEnv) (m : String) :
    ∀ (l1 l2 : List SrcRecord) (nid : Nat),
      docsFrom env m nid (l1 ++ l2)
        = docsFrom env m nid l1 ++ docsFrom env m (nid + l1.length) l2 := by
  intro l1
  induction l1 with
  | nil => intro l2 nid; simp [docsFrom]
  | cons r rs ih =>
    intro l2 nid
    show mkDoc env nid r :: docsFrom env m (nid + 1) (rs ++ l2)
        = (mkDoc env nid r :: docsFrom env m (nid + 1) rs)
          ++ docsFrom env m (nid + (r :: rs).length) l2
    rw [ih l2 (nid + 1), List.length_cons,
      show nid + (rs.length + 1) = nid + 1 + rs.length from by omega,
      List.cons_append]

theorem embsFrom_append (env : UploadEnv) (m : String) :
    ∀ (l1 l2 : List SrcRecord) (nid : Nat),
      embsFrom env m nid (l1 ++ l2)
        = embsFrom env m nid l1 ++ embsFrom env m (nid + l1.length) l2 := by
  intro l1
  induction l1 with
  | nil => intro l2 nid; simp [embsFrom]
  | cons r rs ih =>
    intro l2 nid
    show embRowsOf nid (fieldVecsD env m r) ++ embsFrom env m (nid + 1) (rs ++ l2)
        = (embRowsOf nid (fieldVecsD env m r) ++ embsFrom env m (nid + 1) rs)
          ++ embsFrom env m (nid + (r :: rs).length) l2
    rw [ih l2 (nid + 1), List.length_cons,
      show nid + (rs.length + 1) = nid + 1 + rs.length from by omega,
      List.append_assoc]

theorem commitSim_batch (env : UploadEnv) (m : String) (ce : Nat) :
    ∀ (t : List SrcRecord), t ≠ [] → (∀ r ∈ t, fvOk env m r = true) →
      ∀ (i : Nat) (rest : List SrcRecord) (db : PolicyDB) (nid : Nat)
        (pd : List Document) (pe : List EmbRow), i + t.length = ce →
        commitSim env m ce (t ++ rest) db nid pd pe i
          = commitSim env m ce rest
              ⟨db.docs ++ pd ++ docsFrom env m nid t,
               db.embs ++ pe ++ embsFrom env m nid t⟩
              (nid + t.length) [] [] 0 := by
  intro t
  induction t with
  | nil => intro h; exact absurd rfl h
  | cons r t ih =>
    intro _ hok i rest db nid pd pe hlen
    have hr : fvOk env m r = true := hok r (List.mem_cons_self r t)
    rw [List.cons_append]
    simp only [commitSim, procRecord_ok env m nid r hr]
    cases t with
    | nil =>
      have hce : i + 1 = ce := by simpa using hlen
      have hcond : ((i + 1) % ce == 0) = true := by
        rw [hce, Nat.mod_self]
        rfl
      simp only [hcond, if_true, List.nil_append]
      have hshift := commitSim_shift env m ce rest
        ⟨db.docs ++ (pd ++ [mkDoc env nid r]),
         db.embs ++ (pe ++ embRowsOf nid (fieldVecsD env m r))⟩
        (nid + 1) [] [] 0
      rw [Nat.zero_add] at hshift
      rw [hce, hshift]
      simp [docsFrom, embsFrom, List.append_assoc]
    | cons r2 t2 =>
      have hlt : i + 1 < ce := by
        simp only [List.length_cons] at hlen
        omega
      have hmod : (i + 1) % ce = i + 1 := Nat.mod_eq_of_lt hlt
      have hcond : ((i + 1) % ce == 0) = false := by
        rw [hmod]
        simp
      simp only [hcond, Bool.false_eq_true, if_false]
      rw [ih (by simp) (fun x hx => hok x (List.mem_cons_of_mem r hx)) (i + 1)
        rest db (nid + 1) (pd ++ [mkDoc env nid r])
        (pe ++ embRowsOf nid (fieldVecsD env m r))
        (by simp only [List.length_cons] at hlen ⊢; omega)]
      have hdb :
          (⟨db.docs ++ (pd ++ [mkDoc env nid r])
              ++ docsFrom env m (nid + 1) (r2 :: t2),
            db.embs ++ (pe ++ embRowsOf nid (fieldVecsD env m r))
              ++ embsFrom env m (nid + 1) (r2 :: t2)⟩ : PolicyDB)
          = ⟨db.docs ++ pd ++ docsFrom env m nid (r :: r2 :: t2),
             db.embs ++ pe ++ embsFrom env m nid (r :: r2 :: t2)⟩ := by
        simp [docsFrom, embsFrom, List.append_assoc]
      rw [hdb, show nid + 1 + (r2 :: t2).length = nid + (r :: r2 :: t2).length
        by simp; omega]

theorem commitSim_take (env : UploadEnv) (m : String) (ce : Nat)
    (hce : 0 < ce) :
    ∀ (n : Nat) (pre : List SrcRecord), pre.length = n →
      (∀ r ∈ pre, fvOk env m r = true) → ∀ (db : PolicyDB) (nid : Nat),
      commitSim env m ce pre db nid [] [] 0
        = ⟨db.docs ++ docsFrom env m nid (pre.take (ce * (pre.length / ce))),
           db.embs ++ embsFrom env m nid (pre.take (ce * (pre.length / ce)))⟩ := by
  intro n
  induction n using Nat.strong_induction_on with
  | _ n ih =>
    intro pre hlen hok db nid
    by_cases hlt : pre.length < ce
    · have hdiv : pre.length / ce = 0 := Nat.div_eq_of_lt hlt
      rw [commitSim_noCommit env m ce pre db nid [] [] 0 (by omega)]
      simp [hdiv, docsFrom, embsFrom]
    · push_neg at hlt
      have htlen : (pre.take ce).length = ce := by
        simp only [List.length_take]
        omega
      have htne : pre.take ce ≠ [] := by
        intro hc
        rw [hc] at htlen
        simp at htlen
        omega
      have hdlen : (pre.drop ce).length = pre.length - ce :=
        List.length_drop ce pre
      have hdok : ∀ r ∈ pre.drop ce, fvOk env m r = true :=
        fun r hr => hok r (List.drop_subset ce pre hr)
      have hq : pre.length / ce = (pre.length - ce) / ce + 1 :=
        Nat.div_eq_sub_div hce hlt
      have hk : ce * (pre.length / ce)
          = ce + ce * ((pre.length - ce) / ce) := by
        rw [hq]
        ring
      calc commitSim env m ce pre db nid [] [] 0
          = commitSim env m ce (pre.take ce ++ pre.drop ce) db nid [] [] 0 := by
            rw [List.take_append_drop]
        _ = commitSim env m ce (pre.drop ce)
              ⟨db.docs ++ [] ++ docsFrom env m nid (pre.take ce),
               db.embs ++ [] ++ embsFrom env m nid (pre.take ce)⟩
              (nid + (pre.take ce).length) [] [] 0 :=
            commitSim_batch env m ce (pre.take ce) htne
              (fun r hr => hok r (List.take_subset ce pre hr)) 0 (pre.drop ce)
              db nid [] [] (by omega)
        _ = ⟨db.docs ++ docsFrom env m nid
                (pre.take (ce * (pre.length / ce))),
             db.embs ++ embsFrom env m nid
                (pre.take (ce * (pre.length / ce)))⟩ := by
            rw [ih (pre.drop ce).length (by omega) (pre.drop ce) rfl hdok]
            rw [hdlen, hk, List.take_add]
            rw [docsFrom_append env m (pre.take ce)
              ((pre.drop ce).take (ce * ((pre.length - ce) / ce))) nid]
            rw [embsFrom_append env m (pre.take ce)
              ((pre.drop ce).take (ce * ((pre.length - ce) / ce))) nid]
            rw [htlen]
            simp [List.append_assoc]

/-- C4: uploading records with `commit_every = 50` commits in batches of
50; when some record fails (its embedding call raises) after a prefix
`pre` of successfully processed records, the error is re-raised
(`raised = true`) and the database visible afterwards contains exactly
the rows of the first `50 * (pre.length / 50)` records — the previously
committed batches of 50 — while the in-flight batch is rolled back. -/
theorem upload_batch_rollback (env : UploadEnv) (m : String)
    (pre rest : List SrcRecord) (bad : SrcRecord) (db : PolicyDB)
    (nid : Nat) (hpre : ∀ r ∈ pre, fvOk env m r = true)
    (hbad : fvOk env m bad = false) :
    upload_records env m 50 (pre ++ bad :: rest) db nid "none"
      = ⟨⟨db.docs ++ docsFrom env m nid (pre.take (50 * (pre.length / 50))),
          db.embs ++ embsFrom env m nid (pre.take (50 * (pre.length / 50)))⟩,
         [rollbackMsg], true, true⟩ := by
  have hne : (pre ++ bad :: rest).isEmpty = false := by
    cases pre <;> rfl
  unfold upload_records
  simp only [hne, Bool.false_eq_true, if_false, ne_eq, not_true_eq_false]
  rw [uploadLoop_fail env m 50 pre bad rest db nid [] [] 0 hpre hbad]
  rw [commitSim_take env m 50 (by norm_num) pre.length pre rfl hpre db nid]

theorem upload_batch_rollback_witness :
    (∀ r ∈ ([] : List SrcRecord), fvOk envFail "emb" r = true)
    ∧ fvOk envFail "emb" rec0 = false
    ∧ upload_records envFail "emb" 50 ([] ++ rec0 :: []) emptyDB 1 "none"
      = ⟨⟨emptyDB.docs
            ++ docsFrom envFail "emb" 1
                (([] : List SrcRecord).take (50 * (([] : List SrcRecord).length / 50))),
          emptyDB.embs
            ++ embsFrom envFail "emb" 1
                (([] : List SrcRecord).take (50 * (([] : List SrcRecord).length / 50)))⟩,
         [rollbackMsg], true, true⟩ := by
  refine ⟨by simp, rfl, ?_⟩
  exact upload_batch_rollback envFail "emb" [] [] rec0 emptyDB 1 (by simp) rfl

/-- C5: for a record whose three embedding calls all return (no
exception), the document row is inserted and exactly the fields with a
non-empty vector get an embedding row — a field whose embedding call
yields an empty/absent vector is skipped without affecting the document
row or the other fields' embeddings, and no error is raised. -/
theorem upload_skips_empty_vectors (env : UploadEnv) (m : String) (ce : Nat)
    (db : PolicyDB) (nid : Nat) (r : SrcRecord) (l : List (EmbField × Vec))
    (h : fieldVecs env m r = .ok l) :
    upload_records env m ce [r] db nid "none"
      = ⟨⟨db.docs ++ [mkDoc env nid r], db.embs ++ embRowsOf nid l⟩,
         [], true, false⟩
    ∧ embRowsOf nid l
        = (l.filter fun p => !p.2.isEmpty).map
            (fun p => (⟨nid, p.1, p.2⟩ : EmbRow))
    ∧ ∀ p ∈ l, ((⟨nid, p.1, p.2⟩ : EmbRow) ∈ embRowsOf nid l ↔ p.2 ≠ []) := by
  have hok : fvOk env m r = true := by
    unfold fvOk
    rw [h]
  have hd : fieldVecsD env m r = l := by
    unfold fieldVecsD
    rw [h]
  refine ⟨?_, rfl, ?_⟩
  · unfold upload_records
    simp only [List.isEmpty_cons, Bool.false_eq_true, if_false, ne_eq,
      not_true_eq_false]
    simp only [uploadLoop, procRecord_ok env m nid r hok, hd]
    cases hco : ((0 + 1) % ce == 0) with
    | true => simp [hco]
    | false => simp [hco]
  · intro p hp
    constructor
    · intro hmem
      unfold embRowsOf at hmem
      rcases List.mem_map.mp hmem with ⟨p', hp', heq⟩
      rcases List.mem_filter.mp hp' with ⟨_, hne⟩
      have hv : p'.2 = p.2 := congrArg EmbRow.vec heq
      rw [← hv]
      intro hnil
      rw [hnil] at hne
      simp at hne
    · intro hne
      unfold embRowsOf
      refine List.mem_map.mpr ⟨p, List.mem_filter.mpr ⟨hp, ?_⟩, rfl⟩
      simp [List.isEmpty_iff, hne]

theorem upload_skips_empty_vectors_witness :
    fieldVecs envSkip "emb" recSkip = .ok vecsSkip
    ∧ upload_records envSkip "emb" 50 [recSkip] emptyDB 1 "none"
      = ⟨⟨emptyDB.docs ++ [mkDoc envSkip 1 recSkip],
          emptyDB.embs ++ embRowsOf 1 vecsSkip⟩, [], true, false⟩ :=
  ⟨rfl,
    (upload_skips_empty_vectors envSkip "emb" 50 emptyDB 1 recSkip vecsSkip
      rfl).1⟩

/-- C8: calling the upload step with an empty record list returns
immediately: the database is untouched, no connection is opened, the "no
records" line is logged, no exception is raised and the process exit code
is 0. -/
theorem upload_empty_noop (env : UploadEnv) (m : String) (ce : Nat)
    (db : PolicyDB) (nid : Nat) (reset : String) :
    upload_records env m ce [] db nid reset
      = ⟨db, [noRecordsMsg], false, false⟩
    ∧ exitCodeOf (upload_records env m ce [] db nid reset) = 0 :=
  ⟨rfl, rfl⟩

theorem execLoop_rounds_le (step : List (String × String) → ExecEvent)
    (rt : String → String → String) :
    ∀ (fuel : Nat) (obs : List (String × String)),
      roundsOf (execLoop step rt fuel obs) ≤ obs.length + fuel := by
  intro fuel
  induction fuel with
  | zero => intro obs; simp [execLoop, roundsOf]
  | succ f ih =>
    intro obs
    cases hs : step obs with
    | finish a => simp [execLoop, hs, roundsOf]
    | toolCall name input =>
      have := ih (obs ++ [(name, rt name input)])
      simp only [execLoop, hs]
      simp only [List.length_append, List.length_cons, List.length_nil] at this
      omega

theorem execLoop_allTool (step : List (String × String) → ExecEvent)
    (rt : String → String → String)
    (h : ∀ o, isToolCall (step o) = true) :
    ∀ (fuel : Nat) (obs : List (String × String)),
      execLoop step rt fuel obs = .stoppedAtLimit (obs.length + fuel) := by
  intro fuel
  induction fuel with
  | zero => intro obs; simp [execLoop]
  | succ f ih =>
    intro obs
    cases hs : step obs with
    | finish a =>
      have := h obs
      rw [hs] at this
      simp [isToolCall] at this
    | toolCall name input =>
      simp only [execLoop, hs]
      rw [ih (obs ++ [(name, rt name input)])]
      have heq : (obs ++ [(name, rt name input)]).length + f
          = obs.length + (f + 1) := by
        simp only [List.length_append, List.length_cons, List.length_nil]
        omega
      rw [heq]

/-- C6: modelled from the spec (the LangChain `AgentExecutor` loop is
library code; the cap value `max_iterations = 5` is set in `setup_agent`,
healthcare_chatbot.py line 239).  Every conversational turn performs at
most 5 tool-call rounds, and a model that keeps requesting tools makes
the turn terminate with the partial-answer ("stopped at iteration
limit") result after exactly 5 rounds instead of looping forever; the
loop is a total function, so every turn terminates. -/
theorem agent_turn_cap (step : List (String × String) → ExecEvent)
    (rt : String → String → String) :
    roundsOf (runTurn step rt) ≤ 5
    ∧ ((∀ o, isToolCall (step o) = true) →
        runTurn step rt = .stoppedAtLimit 5) := by
  constructor
  · have := execLoop_rounds_le step rt max_iterations []
    simpa [runTurn, max_iterations] using this
  · intro h
    have := execLoop_allTool step rt h max_iterations []
    simpa [runTurn, max_iterations] using this

theorem agent_turn_cap_witness :
    (∀ o : List (String × String),
      isToolCall ((fun _ : List (String × String) =>
        ExecEvent.toolCall "search_with_score" "q") o) = true)
    ∧ runTurn (fun _ : List (String × String) =>
          ExecEvent.toolCall "search_with_score" "q")
        (fun _ _ => "obs") = .stoppedAtLimit 5 :=
  ⟨fun _ => rfl,
    (agent_turn_cap (fun _ : List (String × String) =>
        ExecEvent.toolCall "search_with_score" "q")
      (fun _ _ => "obs")).2 (fun _ => rfl)⟩

theorem reset_words_not_exit (s : String) (h : s ∈ resetWords) :
    s ∉ exitWords := by
  fin_cases h <;> decide

/-- C7: when the stripped, lowercased input is one of the reset commands
("reset", "clear", "초기화"), one loop iteration of `run_conversation`
clears the in-memory chat history, re-prints the summary, performs no
database write, leaves the loaded documents, agent configuration and
database untouched, and returns to the awaiting-input state. -/
theorem reset_clears_history (respond : List ChatMsg → String → String)
    (s : ChatbotState) (raw : String)
    (h : pyLower (pyStrip raw) ∈ resetWords) :
    stepInput respond s raw
      = ⟨⟨[], s.structuredData, s.agentMax, s.db⟩, .awaitingInput, true, 0⟩ := by
  unfold stepInput
  rw [if_neg (reset_words_not_exit _ h), if_pos h]

theorem reset_clears_history_witness :
    pyLower (pyStrip "초기화") ∈ resetWords
    ∧ stepInput (fun _ _ => "a") chatState0 "초기화"
      = ⟨⟨[], chatState0.structuredData, chatState0.agentMax, chatState0.db⟩,
         .awaitingInput, true, 0⟩ :=
  ⟨by decide,
    reset_clears_history (fun _ _ => "a") chatState0 "초기화" (by decide)⟩

/-- C9: `save_full_conversation` returns the sentinel
`"no_messages_to_save"` with no insert for an empty message list; for a
non-empty list it inserts exactly one `conversations` row and exactly one
`messages` row per input message, and the inserted message rows carry
`turn_index` 0, 1, 2, … in input order (their `turn_index` column lists
out as `range messages.length`). -/
theorem save_conversation_rows (convUuid : String) (freshId : Nat → String)
    (now : ℚ) (pid : Int) :
    save_full_conversation convUuid freshId now pid []
      = ("no_messages_to_save", [])
    ∧ ∀ (msgs : List InMessage), msgs ≠ [] →
        ((save_full_conversation convUuid freshId now pid msgs).2.countP
            isConvOp = 1
        ∧ (save_full_conversation convUuid freshId now pid msgs).2.countP
            (fun o => !isConvOp o) = msgs.length
        ∧ ((save_full_conversation convUuid freshId now pid msgs).2.filterMap
            msgRowOf).map MsgRow.turn_index = List.range msgs.length) := by
  refine ⟨rfl, ?_⟩
  intro msgs hne
  cases msgs with
  | nil => exact absurd rfl hne
  | cons m0 rest =>
    simp only [save_full_conversation]
    have h0 : ((m0 :: rest).enum.map fun p =>
        InsertOp.msg (mkMsgRow freshId convUuid now p)).countP isConvOp = 0 := by
      refine List.countP_eq_zero.mpr ?_
      intro a ha
      rcases List.mem_map.mp ha with ⟨p, _, rfl⟩
      simp [isConvOp]
    have hall : ∀ a ∈ ((m0 :: rest).enum.map fun p =>
        InsertOp.msg (mkMsgRow freshId convUuid now p)),
        (fun o => !isConvOp o) a = true := by
      intro a ha
      rcases List.mem_map.mp ha with ⟨p, _, rfl⟩
      simp [isConvOp]
    refine ⟨?_, ?_, ?_⟩
    · rw [List.countP_cons, h0]
      rfl
    · rw [List.countP_cons, List.countP_eq_length.mpr hall]
      simp [isConvOp, List.enum_length]
    · rw [List.filterMap_cons]
      simp only [msgRowOf]
      rw [List.filterMap_map]
      rw [show (msgRowOf ∘ fun p : Nat × InMessage =>
          InsertOp.msg (mkMsgRow freshId convUuid now p))
        = some ∘ (fun p => mkMsgRow freshId convUuid now p) from rfl]
      rw [List.filterMap_eq_map, List.map_map]
      rw [show (MsgRow.turn_index ∘ fun p : Nat × InMessage =>
          mkMsgRow freshId convUuid now p) = Prod.fst from rfl]
      rw [List.enum_map_fst]

theorem save_conversation_rows_witness :
    msgs1 ≠ []
    ∧ (save_full_conversation "cid" (fun _ => "mid") 0 7 msgs1).2.countP
        isConvOp = 1 :=
  ⟨List.cons_ne_nil inMsg0 [],
    ((save_conversation_rows "cid" (fun _ => "mid") 0 7).2 msgs1
      (List.cons_ne_nil inMsg0 [])).1⟩

/-- C10, counterexample: on a state whose `turn_count` is 0 — a multiple
of 15 — `assemble` reports `summary_updated = false` (because
`int(state.get("turn_count") or 1)` coerces the falsy 0 to 1), so the
flag is not true "exactly when the turn count is a multiple of 15"; the
rolling summary is passed through unchanged. -/
theorem assembler_flag_zero_turn :
    (assemble (fun _ _ => "new") st0).messages.map AssembledMsg.summary_updated
      = [false]
    ∧ (0 : Nat) % 15 = 0
    ∧ (assemble (fun _ _ => "new") st0).rolling_summary = some "old" :=
  ⟨rfl, rfl, rfl⟩

/-- C10, amended: the rolling summary in the returned state is unchanged
unless the incoming turn count is a *positive* multiple of 15, in which
case (and only then) it is replaced by the newly generated summary; the
returned tool message's `summary_updated` flag is true exactly when the
turn count is a positive multiple of 15 (a missing or zero turn count is
coerced to 1 by `int(state.get("turn_count") or 1)`). -/
theorem assembler_summary_flag
    (summarize : Option String → List (String × String) → String)
    (st : AsmState) :
    ((assemble summarize st).messages.map AssembledMsg.summary_updated = [true]
      ↔ ∃ n, st.turn_count = some n ∧ 0 < n ∧ n % 15 = 0)
    ∧ ((∃ n, st.turn_count = some n ∧ 0 < n ∧ n % 15 = 0) →
        (assemble summarize st).rolling_summary
          = some (summarize st.rolling_summary st.messages))
    ∧ ((¬∃ n, st.turn_count = some n ∧ 0 < n ∧ n % 15 = 0) →
        (assemble summarize st).rolling_summary = st.rolling_summary) := by
  obtain ⟨msgs, rs, tc, retr⟩ := st
  cases tc with
  | none => simp [assemble, effectiveTurnCount]
  | some n =>
    by_cases hn : n = 0
    · subst hn
      simp [assemble, effectiveTurnCount]
    · by_cases h15 : n % 15 = 0
      · have hflag : (n % 15 == 0) = true := by simp [h15]
        simp [assemble, effectiveTurnCount, hn, hflag, h15,
          Nat.pos_of_ne_zero hn]
      · have hflag : (n % 15 == 0) = false := by simp [h15]
        simp [assemble, effectiveTurnCount, hn, hflag, h15]

theorem assembler_summary_flag_witness :
    (∃ n, st15.turn_count = some n ∧ 0 < n ∧ n % 15 = 0)
    ∧ (assemble (fun _ _ => "new") st15).rolling_summary
      = some ((fun _ _ => "new") st15.rolling_summary st15.messages) :=
  ⟨⟨15, rfl, by decide, by decide⟩,
    (assembler_summary_flag (fun _ _ => "new") st15).2.1
      ⟨15, rfl, by decide, by decide⟩⟩

end HealthInformer
